import Mathlib

/-!
Shallow embedding of the aggregator core of slimevr-wrangler
(`src/joycon/communication.rs`): the event handler `parse_message`, the
handshake sender `slime_handshake`, and the main loop `main_thread` with its
liveness state machine, event-drain phase and status publication.

The orientation estimator (`Imu`) and the raw frame type (`JoyconAxisData`)
live in `src/joycon/imu.rs`, which the spec explicitly treats as an external
collaborator; they are modelled symbolically from the spec's interface
(`new()`, `update(frame)`, `rotation()`, `euler_angles_deg()`): the estimator
state records the exact sequence of frames fed to `update`, and `rotation` /
`euler_angles_deg` return values determined by that history.  This preserves
exactly the information the aggregator's control flow can depend on.

`f64` axis values are produced and consumed only by external collaborators;
the aggregator moves them around untouched, so their carrier is opaque to the
code modelled here and is embedded as `Int` (any type with decidable equality
would do).

Machine integers: the sensor slot is a `u8` in the source (`id: u8`, assigned
by `let id = devices.len() as _;`), so slot assignment truncates the table
size modulo 2^8 = 256; this is embedded explicitly as `% 256`.

Time: `Instant` values are embedded as integers counting whole seconds; the
source guard `last_handshake_try.elapsed().as_secs() >= 3` (with a monotonic
clock, so `elapsed` is non-negative and `as_secs` truncates) corresponds to
`3 ≤ now - last_handshake_try`.
-/

namespace Wrangler

/-- Modelled from the spec: a raw IMU frame, six calibrated per-axis scalars
(`f64` in the source `src/joycon/imu.rs`, which is outside the specified
core); the aggregator never inspects the values, so their carrier is `Int`. -/
structure JoyconAxisData where
  accel_x : Int
  accel_y : Int
  accel_z : Int
  gyro_x : Int
  gyro_y : Int
  gyro_z : Int
deriving DecidableEq

/-- Modelled from the spec: the orientation estimator, an external
collaborator with interface `new() / update(frame) / rotation() /
euler_angles_deg()`.  Modelled freely: its state is the exact ordered
sequence of frames fed to `update`. -/
structure Imu where
  history : List JoyconAxisData
deriving DecidableEq

/-- Source `Imu::new()`: fresh estimator, no frames fed yet. -/
def Imu.new : Imu := ⟨[]⟩

/-- Source `imu.update(frame)`: feed one frame; the free model appends it to the
call history. -/
def Imu.update (imu : Imu) (frame : JoyconAxisData) : Imu :=
  ⟨imu.history ++ [frame]⟩

/-- A quaternion as produced by `imu.rotation` — symbolic: determined by the
history of frames fed to the estimator. -/
structure Quat where
  ofImu : List JoyconAxisData
deriving DecidableEq

/-- Source `*imu.rotation`, converted for the wire packet. -/
def Imu.rotation (imu : Imu) : Quat := ⟨imu.history⟩

/-- Euler angles in degrees as produced by `imu.euler_angles_deg()` —
symbolic: determined by the history of frames fed to the estimator. -/
structure EulerDeg where
  ofImu : List JoyconAxisData
deriving DecidableEq

/-- Source `imu.euler_angles_deg()` (a `(f64, f64, f64)` in the source). -/
def Imu.euler_angles_deg (imu : Imu) : EulerDeg := ⟨imu.history⟩

/-- Source `JoyconDesignType` (side designator), constructed in
`src/joycon/integration.rs` as `Left` or `Right`. -/
inductive JoyconDesignType
  | Left
  | Right
deriving DecidableEq

/-- Source `JoyconDesign`: display color string plus side designator. -/
structure JoyconDesign where
  color : String
  design_type : JoyconDesignType
deriving DecidableEq

/-- Source `JoyconStatus` (communication.rs lines 18-23). -/
structure JoyconStatus where
  connected : Bool
  rotation : EulerDeg
  design : JoyconDesign
deriving DecidableEq

/-- Source `JoyconDeviceInfo` (communication.rs lines 25-29). -/
structure JoyconDeviceInfo where
  serial_number : String
  design : JoyconDesign
deriving DecidableEq

/-- Source `Device` (communication.rs lines 31-36).  `id` is `u8` in the source;
it is always assigned as `devices.len() as u8`, embedded as `% 256`. -/
structure Device where
  imu : Imu
  design : JoyconDesign
  id : Nat
deriving DecidableEq

/-- Source `JoyconData` (communication.rs lines 51-55).  `imu_data` has the fixed
array type `[JoyconAxisData; 3]`, embedded as a triple. -/
structure JoyconData where
  serial_number : String
  imu_data : JoyconAxisData × JoyconAxisData × JoyconAxisData
deriving DecidableEq

/-- The three frames of a `JoyconData`, in array order, as a list (the order
in which `for frame in data.imu_data` visits them). -/
def JoyconData.framesList (d : JoyconData) : List JoyconAxisData :=
  [d.imu_data.1, d.imu_data.2.1, d.imu_data.2.2]

/-- Source `ChannelInfo` (communication.rs lines 57-61). -/
inductive ChannelInfo
  | Connected (info : JoyconDeviceInfo)
  | Data (data : JoyconData)
deriving DecidableEq

/-- Holds (`true`) exactly on `Connected` events. -/
def ChannelInfo.isConnectedB : ChannelInfo → Bool
  | .Connected _ => true
  | .Data _ => false

/-- The outbound wire messages (`crate::slime::deku::PacketType`), with the
fields the aggregator fills in.  Byte-level encoding (`to_bytes`) is external
(deku) and content-preserving, so packets are modelled at field level. -/
inductive PacketType
  | Handshake (packet_id : Nat) (board : Nat) (imu : Nat) (mcu_type : Nat)
      (imu_info : Nat × Nat × Nat) (build : Nat) (firmware : String)
      (mac_address : List Nat)
  | SensorInfo (packet_id : Nat) (sensor_id : Nat) (sensor_status : Nat)
  | RotationData (packet_id : Nat) (sensor_id : Nat) (data_type : Nat)
      (quat : Quat) (calibration_info : Nat)
deriving DecidableEq

/-- Holds (`true`) exactly on `Handshake` packets. -/
def PacketType.isHandshakeB : PacketType → Bool
  | .Handshake _ _ _ _ _ _ _ _ => true
  | _ => false

/-- Holds (`true`) exactly on `SensorInfo` packets. -/
def PacketType.isSensorInfoB : PacketType → Bool
  | .SensorInfo _ _ _ => true
  | _ => false

/-- Source `Device::handshake` (communication.rs lines 39-48): the `SensorInfo`
packet sent for this device. -/
def Device.handshake (d : Device) : PacketType :=
  .SensorInfo 1 d.id 1

/-- Source `slime_handshake` (communication.rs lines 110-124): the `Handshake`
packet sent to the remote endpoint. -/
def slime_handshake : PacketType :=
  .Handshake 1 0 0 0 (0, 0, 0) 0 "slimevr-wrangler"
    [0x00, 0x0F, 0x00, 0x0F, 0x00, 0x0F]

/-- The device table `HashMap<String, Device>`, embedded as an association
list.  `insert` replaces in place; iteration order is insertion order (the
real `HashMap` iteration order is unspecified, and no claim depends on it
beyond membership and counts). -/
abbrev DeviceTable := List (String × Device)

/-- Source `devices.get(&k)` / `devices.get_mut(&k)`. -/
def lookupDevice : DeviceTable → String → Option Device
  | [], _ => none
  | (k', d) :: t, k => if k' = k then some d else lookupDevice t k

/-- Source `devices.insert(k, v)`: replace the entry for `k` if present, otherwise
add a new entry. -/
def insertDevice : DeviceTable → String → Device → DeviceTable
  | [], k, v => [(k, v)]
  | (k', d) :: t, k, v =>
      if k' = k then (k, v) :: t else (k', d) :: insertDevice t k v

/-- The keys of the table, in iteration order. -/
def tableKeys (t : DeviceTable) : List String := t.map (·.1)

/-- The sensor slots of the table's records, in iteration order. -/
def tableIds (t : DeviceTable) : List Nat := t.map (·.2.id)

/-- Source `parse_message` (communication.rs lines 70-108), as a pure function:
returns the updated device table and the list of packets written to the
socket, in send order. -/
def parse_message (msg : ChannelInfo) (devices : DeviceTable) :
    DeviceTable × List PacketType :=
  match msg with
  | .Connected device_info =>
      let id := devices.length % 256
      let device : Device := { design := device_info.design, imu := Imu.new, id := id }
      (insertDevice devices device_info.serial_number device, [device.handshake])
  | .Data data =>
      match lookupDevice devices data.serial_number with
      | some device =>
          let device :=
            { device with imu := data.framesList.foldl Imu.update device.imu }
          (insertDevice devices data.serial_number device,
            [.RotationData 1 device.id 1 device.imu.rotation 0])
      | none => (devices, [])

/-- The `for msg in receive.try_iter()` drain: process a batch of events in
order, accumulating the table and the packets sent. -/
def processEvents : DeviceTable → List ChannelInfo → DeviceTable × List PacketType
  | t, [] => (t, [])
  | t, msg :: rest =>
      let r := parse_message msg t
      let r' := processEvents r.1 rest
      (r'.1, r.2 ++ r'.2)

/-- The mutable state of `main_thread` (communication.rs lines 131-140):
device table, `any_response` flag, and the `last_handshake_try` instant
(whole seconds). -/
structure AggregatorState where
  devices : DeviceTable
  any_response : Bool
  last_handshake_try : Int
deriving DecidableEq

/-- The environment's contribution to one loop iteration: the current
instant, whether the non-blocking `socket.recv` returns `Ok`, and the events
drained from the channel by the (up to two) `try_iter` passes. -/
structure IterInput where
  now : Int
  recv_ok : Bool
  events : List ChannelInfo
deriving DecidableEq

/-- The observable output of one loop iteration: packets sent by the
liveness phase (lines 142-154), packets sent while processing events
(lines 156-166), and the status snapshot published, if any (lines 168-178). -/
structure IterResult where
  livenessPackets : List PacketType
  eventPackets : List PacketType
  statusSent : Option (List JoyconStatus)
deriving DecidableEq

/-- Initial state (communication.rs lines 131, 138-139):
`last_handshake_try = Instant::now() - Duration::from_secs(60)`. -/
def initState (t0 : Int) : AggregatorState :=
  { devices := [], any_response := false, last_handshake_try := t0 - 60 }

/-- The liveness check/retry phase (communication.rs lines 142-154). -/
def livenessPhase (st : AggregatorState) (inp : IterInput) :
    AggregatorState × List PacketType :=
  if st.any_response = false ∧ 3 ≤ inp.now - st.last_handshake_try then
    if inp.recv_ok then
      ({ st with any_response := true }, [])
    else
      ({ st with last_handshake_try := inp.now },
        slime_handshake :: st.devices.map (fun e => e.2.handshake))
  else (st, [])

/-- The status snapshot built from the device table (communication.rs lines
169-176): one entry per record, in iteration order, `connected` always
`true`. -/
def statusesOf (t : DeviceTable) : List JoyconStatus :=
  t.map fun e =>
    { connected := true, rotation := e.2.imu.euler_angles_deg, design := e.2.design }

/-- One iteration of the `loop` in `main_thread` (communication.rs lines
142-179): liveness phase, event drain, and conditional snapshot publication
(`got_message` holds exactly when at least one event was drained). -/
def step (st : AggregatorState) (inp : IterInput) : AggregatorState × IterResult :=
  let lr := livenessPhase st inp
  let er := processEvents lr.1.devices inp.events
  ({ lr.1 with devices := er.1 },
    { livenessPackets := lr.2
      eventPackets := er.2
      statusSent := if inp.events = [] then none else some (statusesOf er.1) })

/-- Iterating `step` over a list of per-iteration inputs, collecting the
per-iteration results. -/
def run (st : AggregatorState) : List IterInput → AggregatorState × List IterResult
  | [] => (st, [])
  | inp :: rest =>
      let r := step st inp
      let r' := run r.1 rest
      (r'.1, r.2 :: r'.2)

/-- A socket address, as far as the aggregator distinguishes them. -/
structure SocketAddr where
  ip : Nat × Nat × Nat × Nat
  port : Nat
deriving DecidableEq

/-- The hardcoded fallback endpoint: `"127.0.0.1:6969".parse().unwrap()`.
`str::parse::<SocketAddr>` is std-library code (external); every correct
socket-address parser maps that literal to this address. -/
def defaultSlimeAddr : SocketAddr := ⟨(127, 0, 0, 1), 6969⟩

/-- Source `address.parse::<SocketAddr>().unwrap_or_else(|_| "127.0.0.1:6969".parse().unwrap())`
(communication.rs lines 134-136), with the std-library parser abstracted as
a function argument. -/
def resolveAddress (parse : String → Option SocketAddr) (address : String) :
    SocketAddr :=
  match parse address with
  | some a => a
  | none => defaultSlimeAddr

/-- Source `main_thread` (communication.rs lines 126-180) as a pure function of the
per-iteration environment inputs: the first component is the resolved target
address — the destination of every subsequent `send_to` — and the second is
the run of the loop from the initial state. -/
def main_thread (parse : String → Option SocketAddr) (address : String)
    (t0 : Int) (inputs : List IterInput) :
    SocketAddr × (AggregatorState × List IterResult) :=
  (resolveAddress parse address, run (initState t0) inputs)

/-- The serial numbers carried by the `Connected` events of a batch, in
order. -/
def connectedSerials : List ChannelInfo → List String
  | [] => []
  | .Connected info :: es => info.serial_number :: connectedSerials es
  | .Data _ :: es => connectedSerials es

/-! ### Basic lemmas about the estimator model and the device table -/

theorem foldl_update_history (fs : List JoyconAxisData) (m : Imu) :
    (fs.foldl Imu.update m).history = m.history ++ fs := by
  induction fs generalizing m with
  | nil => simp
  | cons f fs ih => simp [Imu.update, ih]

theorem lookup_insert (t : DeviceTable) (k : String) (v : Device) (s : String) :
    lookupDevice (insertDevice t k v) s =
      if k = s then some v else lookupDevice t s := by
  induction t with
  | nil =>
    by_cases hs : k = s <;> simp [insertDevice, lookupDevice, hs]
  | cons e t ih =>
    obtain ⟨k', d⟩ := e
    by_cases h : k' = k
    · subst h
      by_cases hs : k' = s <;> simp [insertDevice, lookupDevice, hs]
    · by_cases hs : k' = s <;> by_cases hk : k = s <;>
        simp_all [insertDevice, lookupDevice]

theorem insert_of_lookup_none (t : DeviceTable) (k : String) (v : Device)
    (h : lookupDevice t k = none) : insertDevice t k v = t ++ [(k, v)] := by
  induction t with
  | nil => simp [insertDevice]
  | cons e t ih =>
    obtain ⟨k', d⟩ := e
    by_cases hk : k' = k
    · simp [lookupDevice, hk] at h
    · simp only [lookupDevice, if_neg hk] at h
      simp [insertDevice, if_neg hk, ih h]

theorem lookup_append_some (t₁ t₂ : DeviceTable) (s : String) (d : Device)
    (h : lookupDevice t₁ s = some d) :
    lookupDevice (t₁ ++ t₂) s = some d := by
  induction t₁ with
  | nil => simp [lookupDevice] at h
  | cons e t ih =>
    obtain ⟨k', d'⟩ := e
    by_cases hk : k' = s
    · simp_all [lookupDevice]
    · simp only [lookupDevice, if_neg hk] at h
      simp [lookupDevice, if_neg hk, ih h]

theorem lookup_append_none (t₁ t₂ : DeviceTable) (s : String)
    (h : lookupDevice t₁ s = none) :
    lookupDevice (t₁ ++ t₂) s = lookupDevice t₂ s := by
  induction t₁ with
  | nil => simp
  | cons e t ih =>
    obtain ⟨k', d'⟩ := e
    by_cases hk : k' = s
    · simp [lookupDevice, hk] at h
    · simp only [lookupDevice, if_neg hk] at h
      simp [lookupDevice, if_neg hk, ih h]

theorem keys_insert_of_lookup_some (t : DeviceTable) (k : String) (v d : Device)
    (h : lookupDevice t k = some d) :
    tableKeys (insertDevice t k v) = tableKeys t := by
  induction t with
  | nil => simp [lookupDevice] at h
  | cons e t ih =>
    obtain ⟨k', d'⟩ := e
    by_cases hk : k' = k
    · subst hk
      simp [insertDevice, tableKeys]
    · simp only [lookupDevice, if_neg hk] at h
      simp [insertDevice, if_neg hk, tableKeys] at ih ⊢
      exact ih h

theorem ids_insert_of_lookup_some (t : DeviceTable) (k : String) (v d : Device)
    (h : lookupDevice t k = some d) (hid : v.id = d.id) :
    tableIds (insertDevice t k v) = tableIds t := by
  induction t with
  | nil => simp [lookupDevice] at h
  | cons e t ih =>
    obtain ⟨k', d'⟩ := e
    by_cases hk : k' = k
    · subst hk
      simp [lookupDevice] at h
      subst h
      simp [insertDevice, tableIds, hid]
    · simp only [lookupDevice, if_neg hk] at h
      simp [insertDevice, if_neg hk, tableIds] at ih ⊢
      exact ih h

theorem tableKeys_length (t : DeviceTable) : (tableKeys t).length = t.length :=
  List.length_map _ _

theorem lookup_eq_none_iff (t : DeviceTable) (s : String) :
    lookupDevice t s = none ↔ s ∉ tableKeys t := by
  induction t with
  | nil => simp [lookupDevice, tableKeys]
  | cons e t ih =>
    obtain ⟨k', d⟩ := e
    by_cases hk : k' = s
    · subst hk
      simp [lookupDevice, tableKeys]
    · simp only [lookupDevice, if_neg hk, ih, tableKeys, List.map_cons,
        List.mem_cons]
      have hne : ¬s = k' := fun hh => hk hh.symm
      tauto

/-! ### Lemmas about event batches -/

theorem processEvents_nil (t : DeviceTable) : processEvents t [] = (t, []) := rfl

theorem processEvents_fst_cons (t : DeviceTable) (e : ChannelInfo)
    (es : List ChannelInfo) :
    (processEvents t (e :: es)).1 = (processEvents (parse_message e t).1 es).1 := by
  simp [processEvents]

theorem processEvents_fst_append (t : DeviceTable) (a b : List ChannelInfo) :
    (processEvents t (a ++ b)).1 = (processEvents (processEvents t a).1 b).1 := by
  induction a generalizing t with
  | nil => simp [processEvents]
  | cons e a ih => simp [processEvents, ih]

theorem connectedSerials_append (a b : List ChannelInfo) :
    connectedSerials (a ++ b) = connectedSerials a ++ connectedSerials b := by
  induction a with
  | nil => rfl
  | cons e es ih => cases e <;> simp [connectedSerials, ih]

theorem connectedSerials_length_of_all (es : List ChannelInfo)
    (h : es.all ChannelInfo.isConnectedB = true) :
    (connectedSerials es).length = es.length := by
  induction es with
  | nil => rfl
  | cons e es ih =>
    cases e with
    | Connected info =>
      simp only [List.all_cons, Bool.and_eq_true] at h
      simp [connectedSerials, ih h.2]
    | Data d => simp [ChannelInfo.isConnectedB] at h

theorem parse_message_counts (msg : ChannelInfo) (t : DeviceTable) :
    (parse_message msg t).2.countP PacketType.isHandshakeB = 0 ∧
    (parse_message msg t).2.countP PacketType.isSensorInfoB =
      (if ChannelInfo.isConnectedB msg then 1 else 0) := by
  cases msg with
  | Connected info =>
    simp [parse_message, Device.handshake, List.countP_cons,
      PacketType.isHandshakeB, PacketType.isSensorInfoB, ChannelInfo.isConnectedB]
  | Data d =>
    cases h : lookupDevice t d.serial_number with
    | none =>
      simp [parse_message, h, ChannelInfo.isConnectedB]
    | some dev =>
      simp [parse_message, h, List.countP_cons,
        PacketType.isHandshakeB, PacketType.isSensorInfoB, ChannelInfo.isConnectedB]

set_option linter.unnecessarySeqFocus false in
theorem processEvents_counts (es : List ChannelInfo) (t : DeviceTable) :
    (processEvents t es).2.countP PacketType.isHandshakeB = 0 ∧
    (processEvents t es).2.countP PacketType.isSensorInfoB =
      es.countP ChannelInfo.isConnectedB := by
  induction es generalizing t with
  | nil => simp [processEvents]
  | cons e es ih =>
    obtain ⟨h1, h2⟩ := parse_message_counts e t
    obtain ⟨h1', h2'⟩ := ih (parse_message e t).1
    constructor
    · simp [processEvents, List.countP_append, h1, h1']
    · simp [processEvents, List.countP_append, h2, h2', List.countP_cons]
      cases e <;> simp [ChannelInfo.isConnectedB] <;> omega

/-- The effect of a `Data` event for a known identity: the record's
estimator is fed the three frames in order, nothing else changes, and one
`RotationData` packet carrying the post-batch quaternion is sent. -/
theorem parse_data_known (t : DeviceTable) (d : JoyconData) (dev : Device)
    (h : lookupDevice t d.serial_number = some dev) :
    (parse_message (.Data d) t).1 =
      insertDevice t d.serial_number
        { dev with imu := ⟨dev.imu.history ++ d.framesList⟩ } ∧
    (parse_message (.Data d) t).2 =
      [PacketType.RotationData 1 dev.id 1 ⟨dev.imu.history ++ d.framesList⟩ 0] := by
  have hist := foldl_update_history d.framesList dev.imu
  have himu : d.framesList.foldl Imu.update dev.imu =
      (⟨dev.imu.history ++ d.framesList⟩ : Imu) := congrArg Imu.mk hist
  constructor
  · simp only [parse_message, h]
    rw [himu]
  · simp only [parse_message, h, Imu.rotation]
    rw [hist]

theorem tableKeys_append (t₁ t₂ : DeviceTable) :
    tableKeys (t₁ ++ t₂) = tableKeys t₁ ++ tableKeys t₂ := by
  simp [tableKeys]

theorem tableIds_append (t₁ t₂ : DeviceTable) :
    tableIds (t₁ ++ t₂) = tableIds t₁ ++ tableIds t₂ := by
  simp [tableIds]

theorem get?_append_left {α : Type} (l₁ l₂ : List α) (n : Nat) (a : α)
    (h : l₁.get? n = some a) : (l₁ ++ l₂).get? n = some a := by
  induction l₁ generalizing n with
  | nil => simp at h
  | cons x l ih =>
    cases n with
    | zero => simpa using h
    | succ m =>
      simp only [List.cons_append, List.get?_cons_succ] at h ⊢
      exact ih m h

set_option linter.unnecessarySimpa false in
/-- In a table whose slot column reads `n, n+1, n+2, …` top to bottom, a
successful lookup pins the record's slot to its position in the key
column. -/
theorem lookup_id_index (t : DeviceTable) (n : Nat)
    (hids : tableIds t = List.range' n t.length) (k : String) (d : Device)
    (h : lookupDevice t k = some d) :
    ∃ j, d.id = n + j ∧ (tableKeys t).get? j = some k := by
  induction t generalizing n with
  | nil => simp [lookupDevice] at h
  | cons e t ih =>
    obtain ⟨k', d'⟩ := e
    have hids' : d'.id :: tableIds t = n :: List.range' (n + 1) t.length := by
      simpa [tableIds, List.range'] using hids
    have hd'id : d'.id = n := (List.cons.injEq _ _ _ _ ▸ hids').1
    have hrest : tableIds t = List.range' (n + 1) t.length :=
      (List.cons.injEq _ _ _ _ ▸ hids').2
    by_cases hk : k' = k
    · subst hk
      simp [lookupDevice] at h
      subst h
      exact ⟨0, by omega, by simp [tableKeys]⟩
    · simp only [lookupDevice, if_neg hk] at h
      obtain ⟨j, hj1, hj2⟩ := ih (n + 1) hrest h
      refine ⟨j + 1, by omega, ?_⟩
      simpa [tableKeys] using hj2

/-- The device-table invariant maintained by `parse_message` over a batch of
events whose `Connected` serial numbers are fresh and pairwise distinct and
keep the table within the `u8` slot range: keys grow by exactly the connect
order, the slot column stays `0, 1, 2, …`, and existing records keep their
slot. -/
theorem processEvents_table_spec (es : List ChannelInfo) (t : DeviceTable)
    (hnd : (connectedSerials es).Nodup)
    (hdisj : ∀ s ∈ connectedSerials es, lookupDevice t s = none)
    (hbud : t.length + (connectedSerials es).length ≤ 256)
    (hgood : tableIds t = List.range t.length) :
    tableKeys (processEvents t es).1 = tableKeys t ++ connectedSerials es ∧
    tableIds (processEvents t es).1 = List.range (processEvents t es).1.length ∧
    ∀ k d, lookupDevice t k = some d →
      ∃ d', lookupDevice (processEvents t es).1 k = some d' ∧ d'.id = d.id := by
  induction es generalizing t with
  | nil =>
    refine ⟨by simp [processEvents, connectedSerials], ?_, ?_⟩
    · simpa [processEvents] using hgood
    · intro k d h
      exact ⟨d, by simpa [processEvents] using h, rfl⟩
  | cons e es ih =>
    cases e with
    | Connected info =>
      have hser : connectedSerials (.Connected info :: es) =
          info.serial_number :: connectedSerials es := rfl
      rw [hser] at hnd hdisj hbud
      have hsn : lookupDevice t info.serial_number = none :=
        hdisj _ (List.mem_cons_self _ _)
      have hlt : t.length < 256 := by
        simp only [List.length_cons] at hbud
        omega
      have ht1 : (parse_message (.Connected info) t).1 =
          t ++ [(info.serial_number,
            (⟨Imu.new, info.design, t.length % 256⟩ : Device))] := by
        simp only [parse_message]
        exact insert_of_lookup_none _ _ _ hsn
      have hT : (processEvents t (.Connected info :: es)).1 =
          (processEvents (t ++ [(info.serial_number,
            (⟨Imu.new, info.design, t.length % 256⟩ : Device))]) es).1 := by
        rw [processEvents_fst_cons, ht1]
      have hkeys1 : tableKeys (t ++ [(info.serial_number,
          (⟨Imu.new, info.design, t.length % 256⟩ : Device))]) =
          tableKeys t ++ [info.serial_number] := by
        simp [tableKeys]
      have hids1 : tableIds (t ++ [(info.serial_number,
          (⟨Imu.new, info.design, t.length % 256⟩ : Device))]) =
          List.range ((t ++ [(info.serial_number,
          (⟨Imu.new, info.design, t.length % 256⟩ : Device))]).length) := by
        rw [tableIds_append, hgood]
        show List.range t.length ++ [t.length % 256] = _
        rw [Nat.mod_eq_of_lt hlt]
        simp [List.range_succ]
      have hnodup' : (connectedSerials es).Nodup := hnd.of_cons
      have hnotmem : info.serial_number ∉ connectedSerials es :=
        (List.nodup_cons.mp hnd).1
      have hdisj' : ∀ s ∈ connectedSerials es,
          lookupDevice (t ++ [(info.serial_number,
            (⟨Imu.new, info.design, t.length % 256⟩ : Device))]) s
            = none := by
        intro s hs
        have hsne : info.serial_number ≠ s := fun hh => hnotmem (hh ▸ hs)
        rw [lookup_append_none _ _ _ (hdisj s (List.mem_cons_of_mem _ hs))]
        simp [lookupDevice, hsne]
      have hbud' : (t ++ [(info.serial_number,
          (⟨Imu.new, info.design, t.length % 256⟩ : Device))]).length
            + (connectedSerials es).length ≤ 256 := by
        simp only [List.length_append, List.length_cons, List.length_nil,
          List.length_cons] at hbud ⊢
        omega
      obtain ⟨k1, k2, k3⟩ := ih _ hnodup' hdisj' hbud' hids1
      refine ⟨?_, ?_, ?_⟩
      · rw [hT, k1, hkeys1, hser]
        simp
      · rw [hT]
        exact k2
      · intro k d h
        have hkne : lookupDevice (t ++ [(info.serial_number,
            (⟨Imu.new, info.design, t.length % 256⟩ : Device))]) k
              = some d := lookup_append_some _ _ _ _ h
        rw [hT]
        exact k3 k d hkne
    | Data data =>
      have hser : connectedSerials (.Data data :: es) = connectedSerials es := rfl
      rw [hser] at hnd hdisj hbud
      cases hl : lookupDevice t data.serial_number with
      | none =>
        have hT : (processEvents t (.Data data :: es)).1 = (processEvents t es).1 := by
          rw [processEvents_fst_cons]
          simp [parse_message, hl]
        obtain ⟨k1, k2, k3⟩ := ih t hnd hdisj hbud hgood
        exact ⟨by rw [hT, k1, hser], by rw [hT]; exact k2, fun k d h => by
          rw [hT]; exact k3 k d h⟩
      | some dev =>
        obtain ⟨hp1, _⟩ := parse_data_known t data dev hl
        have hT : (processEvents t (.Data data :: es)).1 =
            (processEvents (insertDevice t data.serial_number
              { dev with imu := ⟨dev.imu.history ++ data.framesList⟩ }) es).1 := by
          rw [processEvents_fst_cons, hp1]
        have hkeys1 : tableKeys (insertDevice t data.serial_number
            { dev with imu := ⟨dev.imu.history ++ data.framesList⟩ }) = tableKeys t :=
          keys_insert_of_lookup_some t _ _ dev hl
        have hids1 : tableIds (insertDevice t data.serial_number
            { dev with imu := ⟨dev.imu.history ++ data.framesList⟩ }) = tableIds t :=
          ids_insert_of_lookup_some t _ _ dev hl rfl
        have hlen1 : (insertDevice t data.serial_number
            { dev with imu := ⟨dev.imu.history ++ data.framesList⟩ }).length
              = t.length := by
          rw [← tableKeys_length, hkeys1, tableKeys_length]
        have hdisj' : ∀ s ∈ connectedSerials es,
            lookupDevice (insertDevice t data.serial_number
              { dev with imu := ⟨dev.imu.history ++ data.framesList⟩ }) s = none := by
          intro s hs
          have hsne : data.serial_number ≠ s := by
            intro hh
            rw [hh] at hl
            rw [hdisj s hs] at hl
            exact Option.noConfusion hl
          rw [lookup_insert, if_neg hsne]
          exact hdisj s hs
        have hbud' : (insertDevice t data.serial_number
            { dev with imu := ⟨dev.imu.history ++ data.framesList⟩ }).length
              + (connectedSerials es).length ≤ 256 := by
          rw [hlen1]
          exact hbud
        have hgood' : tableIds (insertDevice t data.serial_number
            { dev with imu := ⟨dev.imu.history ++ data.framesList⟩ }) =
            List.range (insertDevice t data.serial_number
              { dev with imu := ⟨dev.imu.history ++ data.framesList⟩ }).length := by
          rw [hids1, hgood, hlen1]
        obtain ⟨k1, k2, k3⟩ := ih _ hnd hdisj' hbud' hgood'
        refine ⟨by rw [hT, k1, hkeys1, hser], by rw [hT]; exact k2, ?_⟩
        intro k d h
        rw [hT]
        by_cases hk : data.serial_number = k
        · have hdev : d = dev := by
            rw [← hk] at h
            rw [hl] at h
            exact (Option.some.injEq _ _ ▸ h).symm
          have hlk : lookupDevice (insertDevice t data.serial_number
              { dev with imu := ⟨dev.imu.history ++ data.framesList⟩ }) k =
              some { dev with imu := ⟨dev.imu.history ++ data.framesList⟩ } := by
            rw [lookup_insert, if_pos hk]
          obtain ⟨d', hd', hid'⟩ := k3 k _ hlk
          exact ⟨d', hd', by rw [hid', hdev]⟩
        · have hlk : lookupDevice (insertDevice t data.serial_number
              { dev with imu := ⟨dev.imu.history ++ data.framesList⟩ }) k = some d := by
            rw [lookup_insert, if_neg hk]
            exact h
          exact k3 k d hlk

/-! ### Concrete data used by witnesses and counterexamples -/

/-- A concrete frame. -/
def frame0 : JoyconAxisData := ⟨0, 0, 0, 0, 0, 0⟩

/-- A concrete frame. -/
def frame1 : JoyconAxisData := ⟨1, 0, 0, 0, 0, 0⟩

/-- A concrete frame. -/
def frame2 : JoyconAxisData := ⟨2, 0, 0, 0, 0, 0⟩

/-- A concrete left-handed design. -/
def designL : JoyconDesign := ⟨"#ff0000", .Left⟩

/-- A concrete right-handed design. -/
def designR : JoyconDesign := ⟨"#00ff00", .Right⟩

/-- A concrete device record with slot 0. -/
def devA : Device := ⟨Imu.new, designL, 0⟩

/-- A one-record table. -/
def tableA : DeviceTable := [("ABC123", devA)]

/-- A sample batch for the known identity of `tableA`. -/
def dataA : JoyconData := ⟨"ABC123", (frame0, frame1, frame2)⟩

/-- A sample batch for an identity unknown to `tableA`. -/
def dataX : JoyconData := ⟨"XYZ999", (frame0, frame0, frame0)⟩

/-- A concrete not-yet-responded aggregator state over `tableA`. -/
def stW : AggregatorState := ⟨tableA, false, 0⟩

/-- A concrete socket-address parser used to witness C8. -/
def parseW : String → Option SocketAddr :=
  fun s => if s = "10.0.0.2:21" then some ⟨(10, 0, 0, 2), 21⟩ else none

/-- A `Connected` event for identity "A". -/
def connA : ChannelInfo := .Connected ⟨"A", designL⟩

/-- A `Connected` event for identity "B". -/
def connB : ChannelInfo := .Connected ⟨"B", designR⟩

/-- The trace refuting C1: identity "A" connects, re-connects, then a new
identity "B" connects. -/
def cexReconnect : List ChannelInfo := [connA, connA, connB]

/-- Pairwise-distinct serial numbers: `i` letters "a". -/
def serialOf (i : Nat) : String := String.mk (List.replicate i 'a')

/-- Exactly 257 `Connected` events with pairwise-distinct identities — one more than
the `u8` sensor-slot range. -/
def cexConnect257 : List ChannelInfo :=
  (List.range 257).map fun i => .Connected ⟨serialOf i, designL⟩

/-- The first 256 of the events of `cexConnect257`. -/
def cexConnect256 : List ChannelInfo :=
  (List.range 256).map fun i => .Connected ⟨serialOf i, designL⟩

/-- The 257th event of `cexConnect257`. -/
def connect256 : ChannelInfo := .Connected ⟨serialOf 256, designL⟩

/-- A concrete aggregator state that has already seen a response. -/
def stResp : AggregatorState := ⟨tableA, true, 0⟩

/-- A concrete input list: one iteration draining one `Connected` event. -/
def inpsW : List IterInput := [⟨10, false, [connB]⟩]

theorem serialOf_injective : Function.Injective serialOf := by
  intro i j h
  have hl : List.replicate i 'a' = List.replicate j 'a' := congrArg String.data h
  have := congrArg List.length hl
  simpa using this

theorem connectedSerials_map_connected (l : List Nat) (f : Nat → String)
    (dsg : Nat → JoyconDesign) :
    connectedSerials (l.map fun i => .Connected ⟨f i, dsg i⟩) = l.map f := by
  induction l with
  | nil => rfl
  | cons x l ih => simp [connectedSerials, ih]

theorem all_connected_map (l : List Nat) (f : Nat → String)
    (dsg : Nat → JoyconDesign) :
    ((l.map fun i => ChannelInfo.Connected ⟨f i, dsg i⟩).all
      ChannelInfo.isConnectedB) = true := by
  induction l with
  | nil => rfl
  | cons x l ih => simp [ChannelInfo.isConnectedB, ih]

/-! ### Claims -/

/-- C3: processing a `Sample` (`Data`) event whose frames sequence has k
frames (here `d.framesList`, k = its length) for an identity present in the
device table feeds exactly those k frames, in order, to that device's
estimator (`update` call history grows by exactly `d.framesList`), leaves
every other record unchanged, and sends exactly one `RotationData` packet
carrying that device's sensor slot and the estimator's quaternion after all
k updates — not one packet per frame. -/
theorem c3_one_rotation_per_batch (t : DeviceTable) (d : JoyconData)
    (dev : Device) (h : lookupDevice t d.serial_number = some dev) :
    (∃ dev', lookupDevice (parse_message (.Data d) t).1 d.serial_number = some dev' ∧
        dev'.imu.history = dev.imu.history ++ d.framesList ∧
        dev'.id = dev.id ∧ dev'.design = dev.design) ∧
    (∀ k, k ≠ d.serial_number →
        lookupDevice (parse_message (.Data d) t).1 k = lookupDevice t k) ∧
    (parse_message (.Data d) t).2 =
      [PacketType.RotationData 1 dev.id 1 ⟨dev.imu.history ++ d.framesList⟩ 0] := by
  obtain ⟨h1, h2⟩ := parse_data_known t d dev h
  refine ⟨⟨{ dev with imu := ⟨dev.imu.history ++ d.framesList⟩ }, ?_, rfl, rfl, rfl⟩,
    ?_, h2⟩
  · rw [h1, lookup_insert, if_pos rfl]
  · intro k hk
    rw [h1, lookup_insert, if_neg (fun hh => hk hh.symm)]

/-- Witness for C3 at a concrete table and sample. -/
theorem c3_witness :
    (∃ dev', lookupDevice (parse_message (.Data dataA) tableA).1 dataA.serial_number
        = some dev' ∧
        dev'.imu.history = devA.imu.history ++ dataA.framesList ∧
        dev'.id = devA.id ∧ dev'.design = devA.design) ∧
    (∀ k, k ≠ dataA.serial_number →
        lookupDevice (parse_message (.Data dataA) tableA).1 k = lookupDevice tableA k) ∧
    (parse_message (.Data dataA) tableA).2 =
      [PacketType.RotationData 1 devA.id 1 ⟨devA.imu.history ++ dataA.framesList⟩ 0] :=
  c3_one_rotation_per_batch tableA dataA devA (by decide)

/-- C4: processing a `Sample` (`Data`) event whose identity is not a key of
the device table is a no-op: the table (hence every record's estimator and
slot) is unchanged and no packet is sent. -/
theorem c4_unknown_sample_noop (t : DeviceTable) (d : JoyconData)
    (h : lookupDevice t d.serial_number = none) :
    parse_message (.Data d) t = (t, []) := by
  simp [parse_message, h]

/-- Witness for C4 at a concrete table and unknown-identity sample. -/
theorem c4_witness : parse_message (.Data dataX) tableA = (tableA, []) :=
  c4_unknown_sample_noop tableA dataX (by decide)

/-- C6: while no inbound datagram has ever been received
(`any_response = false`), an iteration at which at least 3 seconds have
elapsed since `last_handshake_try` first attempts the non-blocking read;
if it fails, exactly one `Handshake` packet followed by one `SensorInfo`
packet per record currently in the table is sent and the timer is reset to
now (so the cadence is ≥ 3 s); if the read succeeds nothing is sent; and an
iteration with less than 3 seconds elapsed sends no liveness traffic. -/
theorem c6_liveness_retry_cadence (st : AggregatorState) (inp : IterInput) :
    (st.any_response = false → 3 ≤ inp.now - st.last_handshake_try →
      inp.recv_ok = false →
        (step st inp).2.livenessPackets =
          slime_handshake :: st.devices.map (fun e => e.2.handshake) ∧
        (step st inp).1.last_handshake_try = inp.now ∧
        (step st inp).1.any_response = false) ∧
    (st.any_response = false → 3 ≤ inp.now - st.last_handshake_try →
      inp.recv_ok = true → (step st inp).2.livenessPackets = []) ∧
    (inp.now - st.last_handshake_try < 3 →
      (step st inp).2.livenessPackets = []) := by
  refine ⟨fun h1 h2 h3 => ?_, fun h1 h2 h3 => ?_, fun h1 => ?_⟩
  · simp [step, livenessPhase, h1, h2, h3]
  · simp [step, livenessPhase, h1, h2, h3]
  · have hn : ¬3 ≤ inp.now - st.last_handshake_try := by omega
    simp [step, livenessPhase, hn]

/-- Witness for C6 at concrete states and inputs. -/
theorem c6_witness :
    ((step stW ⟨5, false, []⟩).2.livenessPackets =
        slime_handshake :: stW.devices.map (fun e => e.2.handshake) ∧
      (step stW ⟨5, false, []⟩).1.last_handshake_try = 5 ∧
      (step stW ⟨5, false, []⟩).1.any_response = false) ∧
    (step stW ⟨5, true, []⟩).2.livenessPackets = [] ∧
    (step stW ⟨1, false, []⟩).2.livenessPackets = [] :=
  ⟨(c6_liveness_retry_cadence stW ⟨5, false, []⟩).1 rfl (by decide) rfl,
    (c6_liveness_retry_cadence stW ⟨5, true, []⟩).2.1 rfl (by decide) rfl,
    (c6_liveness_retry_cadence stW ⟨1, false, []⟩).2.2 (by decide)⟩

/-- C7: an iteration that drains zero events publishes no status snapshot;
an iteration that processes at least one event publishes exactly one
snapshot with one entry per device record, each entry carrying
`connected = true`. -/
theorem c7_snapshot_only_on_activity (st : AggregatorState) (inp : IterInput) :
    (inp.events = [] → (step st inp).2.statusSent = none) ∧
    (inp.events ≠ [] →
      (step st inp).2.statusSent = some (statusesOf (step st inp).1.devices) ∧
      (statusesOf (step st inp).1.devices).length = (step st inp).1.devices.length ∧
      ∀ s ∈ statusesOf (step st inp).1.devices, s.connected = true) := by
  constructor
  · intro h
    simp [step, h]
  · intro h
    refine ⟨by simp [step, h], by simp [statusesOf], ?_⟩
    intro s hs
    simp [statusesOf] at hs
    obtain ⟨e, w, _, rfl⟩ := hs
    rfl

/-- Witness for C7 at concrete states and inputs. -/
theorem c7_witness :
    (step stW ⟨5, true, []⟩).2.statusSent = none ∧
    ((step stW ⟨5, true, [.Data dataA]⟩).2.statusSent =
        some (statusesOf (step stW ⟨5, true, [.Data dataA]⟩).1.devices) ∧
      (statusesOf (step stW ⟨5, true, [.Data dataA]⟩).1.devices).length =
        (step stW ⟨5, true, [.Data dataA]⟩).1.devices.length ∧
      ∀ s ∈ statusesOf (step stW ⟨5, true, [.Data dataA]⟩).1.devices,
        s.connected = true) :=
  ⟨(c7_snapshot_only_on_activity stW ⟨5, true, []⟩).1 rfl,
    (c7_snapshot_only_on_activity stW ⟨5, true, [.Data dataA]⟩).2 (by decide)⟩

/-- C8: if the configured address string fails to parse, the aggregator does
not fail: it substitutes the fixed default endpoint 127.0.0.1:6969; for
every well-formed address string the parsed address itself is used; and the
resolved address is the destination of all subsequent sends of
`main_thread`. -/
theorem c8_address_fallback (parse : String → Option SocketAddr) (s : String)
    (t0 : Int) (inputs : List IterInput) :
    (parse s = none → resolveAddress parse s = defaultSlimeAddr) ∧
    (∀ a, parse s = some a → resolveAddress parse s = a) ∧
    (main_thread parse s t0 inputs).1 = resolveAddress parse s := by
  refine ⟨fun h => ?_, fun a h => ?_, rfl⟩
  · simp [resolveAddress, h]
  · simp [resolveAddress, h]

/-- Witness for C8: a malformed string falls back to the default endpoint, a
well-formed one is used as parsed. -/
theorem c8_witness :
    resolveAddress parseW "bogus" = defaultSlimeAddr ∧
    resolveAddress parseW "10.0.0.2:21" = ⟨(10, 0, 0, 2), 21⟩ :=
  ⟨(c8_address_fallback parseW "bogus" 0 []).1 (by decide),
    (c8_address_fallback parseW "10.0.0.2:21" 0 []).2.1 _ (by decide)⟩

/-- C9: every `Data` event carries exactly three IMU frames (the source
field has fixed-array type `[JoyconAxisData; 3]`), so processing a sample
for a known identity performs exactly three estimator updates before the
single `RotationData` send. -/
theorem c9_exactly_three_frames (d : JoyconData) :
    d.framesList.length = 3 ∧
    ∀ t dev, lookupDevice t d.serial_number = some dev →
      (parse_message (.Data d) t).2.length = 1 ∧
      ∃ dev', lookupDevice (parse_message (.Data d) t).1 d.serial_number = some dev' ∧
        dev'.imu.history = dev.imu.history ++ d.framesList := by
  refine ⟨rfl, fun t dev h => ?_⟩
  obtain ⟨h1, h2⟩ := parse_data_known t d dev h
  refine ⟨by rw [h2]; rfl, { dev with imu := ⟨dev.imu.history ++ d.framesList⟩ }, ?_, rfl⟩
  rw [h1, lookup_insert, if_pos rfl]

/-- Witness for C9 at a concrete table and sample. -/
theorem c9_witness :
    dataA.framesList.length = 3 ∧
    ((parse_message (.Data dataA) tableA).2.length = 1 ∧
      ∃ dev', lookupDevice (parse_message (.Data dataA) tableA).1 dataA.serial_number
          = some dev' ∧
        dev'.imu.history = devA.imu.history ++ dataA.framesList) :=
  ⟨(c9_exactly_three_frames dataA).1,
    (c9_exactly_three_frames dataA).2 tableA devA (by decide)⟩

/-- C10: the handshake timer starts 60 seconds in the past, so on the very
first iteration (at the start instant) the ≥ 3 s condition already holds and
— after one failed non-blocking read — the first `Handshake` packet goes out
immediately (the table is still empty, so no `SensorInfo` follows it). -/
theorem c10_immediate_first_handshake (t0 : Int) (inp : IterInput)
    (hnow : inp.now = t0) (hrecv : inp.recv_ok = false) :
    3 ≤ inp.now - (initState t0).last_handshake_try ∧
    (step (initState t0) inp).2.livenessPackets = [slime_handshake] := by
  have h3 : 3 ≤ inp.now - (initState t0).last_handshake_try := by
    subst hnow
    show (3 : Int) ≤ inp.now - (inp.now - 60)
    omega
  refine ⟨h3, ?_⟩
  simp [step, livenessPhase, initState, hrecv, h3, hnow]

/-- Witness for C10 at start instant 0. -/
theorem c10_witness :
    3 ≤ (0 : Int) - (initState 0).last_handshake_try ∧
    (step (initState 0) ⟨0, false, []⟩).2.livenessPackets = [slime_handshake] :=
  c10_immediate_first_handshake 0 ⟨0, false, []⟩ rfl rfl

/-- Counterexample to C1 as stated: after the reachable event sequence
`[Connected "A", Connected "A", Connected "B"]` the table holds two records
("A" and "B") both carrying sensor slot 1 — slots are not unique once a
re-`Connected` event for a known identity is followed by a `Connected` event
for a new identity. -/
theorem c1_counterexample :
    ¬ (tableIds (processEvents [] cexReconnect).1).Nodup := by decide

/-- C1 (amended): restricted to event sequences whose `Connected` identities
are pairwise distinct, with at most 256 `Connected` events: at every stage
(prefix `p` of the sequence) the slots in the table are pairwise distinct,
a record's slot never changes between stages, and two records with
different identities never hold the same slot — even across stages. -/
theorem c1_slot_uniqueness_stable (es p q : List ChannelInfo)
    (hp : ∃ r, p ++ r = es) (hq : ∃ r, q ++ r = es)
    (hnd : (connectedSerials es).Nodup)
    (hbud : (connectedSerials es).length ≤ 256) :
    (tableIds (processEvents [] p).1).Nodup ∧
    (∀ r, p ++ r = q →
      ∀ k d, lookupDevice (processEvents [] p).1 k = some d →
        ∃ d', lookupDevice (processEvents [] q).1 k = some d' ∧ d'.id = d.id) ∧
    (∀ k k' d d', k ≠ k' →
      lookupDevice (processEvents [] p).1 k = some d →
      lookupDevice (processEvents [] q).1 k' = some d' →
      d.id ≠ d'.id) := by
  obtain ⟨rp, hrp⟩ := hp
  obtain ⟨rq, hrq⟩ := hq
  have hsp : connectedSerials p ++ connectedSerials rp = connectedSerials es := by
    rw [← hrp, connectedSerials_append]
  have hsq : connectedSerials q ++ connectedSerials rq = connectedSerials es := by
    rw [← hrq, connectedSerials_append]
  have hndp : (connectedSerials p).Nodup := by
    rw [← hsp] at hnd
    exact hnd.of_append_left
  have hndq : (connectedSerials q).Nodup := by
    rw [← hsq] at hnd
    exact hnd.of_append_left
  have hbp : (connectedSerials p).length ≤ 256 := by
    have := congrArg List.length hsp
    simp only [List.length_append] at this
    omega
  have hbq : (connectedSerials q).length ≤ 256 := by
    have := congrArg List.length hsq
    simp only [List.length_append] at this
    omega
  obtain ⟨kp, ip, _⟩ := processEvents_table_spec p [] hndp (fun s _ => rfl)
    (by simpa using hbp) rfl
  obtain ⟨kq, iq, _⟩ := processEvents_table_spec q [] hndq (fun s _ => rfl)
    (by simpa using hbq) rfl
  refine ⟨by rw [ip]; exact List.nodup_range _, ?_, ?_⟩
  · intro r hr k d hk
    have hTq : (processEvents [] q).1 = (processEvents (processEvents [] p).1 r).1 := by
      rw [← hr, processEvents_fst_append]
    have hsr : connectedSerials p ++ connectedSerials r = connectedSerials q := by
      rw [← hr, connectedSerials_append]
    have hnpr : (connectedSerials p ++ connectedSerials r).Nodup := by
      rw [hsr]
      exact hndq
    have hndr : (connectedSerials r).Nodup := hnpr.of_append_right
    have hdisjr : ∀ s ∈ connectedSerials r,
        lookupDevice (processEvents [] p).1 s = none := by
      intro s hs
      rw [lookup_eq_none_iff, kp]
      simp only [tableKeys, List.map_nil, List.nil_append]
      intro hmem
      exact (List.disjoint_of_nodup_append hnpr) hmem hs
    have hlenp : (processEvents [] p).1.length = (connectedSerials p).length := by
      rw [← tableKeys_length, kp]
      simp [tableKeys]
    have hbudr : (processEvents [] p).1.length + (connectedSerials r).length ≤ 256 := by
      rw [hlenp]
      have := congrArg List.length hsr
      simp only [List.length_append] at this
      omega
    obtain ⟨_, _, sr⟩ :=
      processEvents_table_spec r (processEvents [] p).1 hndr hdisjr hbudr ip
    obtain ⟨d', hd', hid'⟩ := sr k d hk
    exact ⟨d', by rw [hTq]; exact hd', hid'⟩
  · intro k k' d d' hkk' hk hk'
    have hip' : tableIds (processEvents [] p).1 =
        List.range' 0 (processEvents [] p).1.length := by
      rw [ip, List.range_eq_range']
    have hiq' : tableIds (processEvents [] q).1 =
        List.range' 0 (processEvents [] q).1.length := by
      rw [iq, List.range_eq_range']
    obtain ⟨j, hj1, hj2⟩ := lookup_id_index _ 0 hip' k d hk
    obtain ⟨j', hj1', hj2'⟩ := lookup_id_index _ 0 hiq' k' d' hk'
    intro heq
    have hjj : j = j' := by omega
    have hgp : (connectedSerials p).get? j = some k := by
      rw [kp] at hj2
      simpa [tableKeys] using hj2
    have hgq : (connectedSerials q).get? j' = some k' := by
      rw [kq] at hj2'
      simpa [tableKeys] using hj2'
    have hep : (connectedSerials es).get? j = some k := by
      rw [← hsp]
      exact get?_append_left _ _ _ _ hgp
    have heq' : (connectedSerials es).get? j' = some k' := by
      rw [← hsq]
      exact get?_append_left _ _ _ _ hgq
    rw [hjj] at hep
    rw [hep] at heq'
    exact hkk' (Option.some.injEq _ _ ▸ heq')

/-- Witness for the amended C1 on the two-device trace `[connA, connB]`,
with `p` its one-event prefix and `q` the whole trace. -/
theorem c1_witness :
    (tableIds (processEvents [] [connA]).1).Nodup ∧
    (∀ r, [connA] ++ r = [connA, connB] →
      ∀ k d, lookupDevice (processEvents [] [connA]).1 k = some d →
        ∃ d', lookupDevice (processEvents [] [connA, connB]).1 k = some d' ∧
          d'.id = d.id) ∧
    (∀ k k' d d', k ≠ k' →
      lookupDevice (processEvents [] [connA]).1 k = some d →
      lookupDevice (processEvents [] [connA, connB]).1 k' = some d' →
      d.id ≠ d'.id) :=
  c1_slot_uniqueness_stable [connA, connB] [connA] [connA, connB]
    ⟨[connB], rfl⟩ ⟨[], by simp⟩ (by decide) (by decide)

/-- Counterexample to C2 as stated: 257 `Connected` events with
pairwise-distinct identities do not receive slots `0..256` — the `u8` slot
of the 257th record wraps to `0` (`devices.len() as u8`). -/
theorem c2_counterexample :
    cexConnect257.all ChannelInfo.isConnectedB = true ∧
    (connectedSerials cexConnect257).Nodup ∧
    tableIds (processEvents [] cexConnect257).1 ≠
      List.range cexConnect257.length := by
  have hser256 : connectedSerials cexConnect256 = (List.range 256).map serialOf := by
    simpa [cexConnect256] using
      connectedSerials_map_connected (List.range 256) serialOf (fun _ => designL)
  have hser257 : connectedSerials cexConnect257 = (List.range 257).map serialOf := by
    simpa [cexConnect257] using
      connectedSerials_map_connected (List.range 257) serialOf (fun _ => designL)
  obtain ⟨k1, i1, _⟩ := processEvents_table_spec cexConnect256 []
    (by rw [hser256]; exact List.Nodup.map serialOf_injective (List.nodup_range 256))
    (fun s _ => rfl)
    (by rw [hser256]
        simp only [List.length_nil, List.length_map, List.length_range]
        omega)
    rfl
  have hkeys : tableKeys (processEvents [] cexConnect256).1 =
      (List.range 256).map serialOf := by
    rw [k1, hser256]
    rfl
  have hlenT : (processEvents [] cexConnect256).1.length = 256 := by
    rw [← tableKeys_length, hkeys]
    simp only [List.length_map, List.length_range]
  have hids256 : tableIds (processEvents [] cexConnect256).1 = List.range 256 := by
    rw [i1, hlenT]
  have hfresh : lookupDevice (processEvents [] cexConnect256).1 (serialOf 256)
      = none := by
    rw [lookup_eq_none_iff, hkeys]
    intro hmem
    simp only [List.mem_map, List.mem_range] at hmem
    obtain ⟨i, hi, hserEq⟩ := hmem
    have := serialOf_injective hserEq
    omega
  have hsplit : cexConnect257 = cexConnect256 ++ [connect256] := by
    show (List.range 257).map _ = _
    rw [show (257 : Nat) = 256 + 1 from rfl, List.range_succ]
    simp [cexConnect256, connect256]
  have hstep : (processEvents [] cexConnect257).1 =
      (processEvents [] cexConnect256).1 ++
        [(serialOf 256,
          (⟨Imu.new, designL, (processEvents [] cexConnect256).1.length % 256⟩
            : Device))] := by
    rw [hsplit, processEvents_fst_append, processEvents_fst_cons]
    simp only [processEvents_nil]
    simp only [connect256, parse_message]
    exact insert_of_lookup_none _ _ _ hfresh
  have hidsFull : tableIds (processEvents [] cexConnect257).1 =
      List.range 256 ++ [0] := by
    rw [hstep, tableIds_append, hids256]
    show List.range 256 ++
      [(processEvents [] cexConnect256).1.length % 256] = _
    rw [hlenT]
  have hlen257 : cexConnect257.length = 257 := by
    simp only [cexConnect257, List.length_map, List.length_range]
  refine ⟨?_, ?_, ?_⟩
  · simpa only [cexConnect257] using
      all_connected_map (List.range 257) serialOf (fun _ => designL)
  · rw [hser257]
    exact List.Nodup.map serialOf_injective (List.nodup_range 257)
  · rw [hidsFull, hlen257]
    intro hEq
    have h257 : List.range 257 = List.range 256 ++ [256] := by
      have h : (257 : Nat) = 256 + 1 := rfl
      rw [h, List.range_succ]
    rw [h257] at hEq
    have := List.append_cancel_left hEq
    simp at this

/-- C2 (amended): for any sequence of N ≤ 256 `Connected` events with
pairwise-distinct identities (and no other events), the table's keys are
exactly the identities in connection order and the slot column is exactly
`0..N-1` (each slot computed as the table size at insertion). -/
theorem c2_dense_slot_assignment (es : List ChannelInfo)
    (hall : es.all ChannelInfo.isConnectedB = true)
    (hnd : (connectedSerials es).Nodup)
    (hN : es.length ≤ 256) :
    tableKeys (processEvents [] es).1 = connectedSerials es ∧
    tableIds (processEvents [] es).1 = List.range es.length := by
  have hlen := connectedSerials_length_of_all es hall
  obtain ⟨k1, k2, _⟩ := processEvents_table_spec es [] hnd (fun s _ => rfl)
    (by simpa [hlen] using hN) rfl
  have hkeys : tableKeys (processEvents [] es).1 = connectedSerials es := by
    rw [k1]
    simp [tableKeys]
  refine ⟨hkeys, ?_⟩
  rw [k2]
  have hlen2 : (processEvents [] es).1.length = es.length := by
    rw [← tableKeys_length, hkeys, hlen]
  rw [hlen2]

/-- Witness for the amended C2 on two distinct `Connected` events. -/
theorem c2_witness :
    tableKeys (processEvents [] [connA, connB]).1 =
      connectedSerials [connA, connB] ∧
    tableIds (processEvents [] [connA, connB]).1 =
      List.range ([connA, connB] : List ChannelInfo).length :=
  c2_dense_slot_assignment [connA, connB] (by decide) (by decide) (by decide)

/-- C5: the liveness flag is absorbing — from any state with
`any_response = true`, every later iteration, whatever its inputs, stays in
that state, sends no liveness traffic at all (no `Handshake`, no
liveness-triggered `SensorInfo` resend), never emits a `Handshake` from
event processing either, and still emits exactly one `SensorInfo` per
`Connected` event drained in that iteration. -/
theorem c5_liveness_terminal (st : AggregatorState) (inputs : List IterInput)
    (h : st.any_response = true) :
    (run st inputs).1.any_response = true ∧
    ∀ pr ∈ inputs.zip (run st inputs).2,
      pr.2.livenessPackets = [] ∧
      pr.2.eventPackets.countP PacketType.isHandshakeB = 0 ∧
      pr.2.eventPackets.countP PacketType.isSensorInfoB =
        pr.1.events.countP ChannelInfo.isConnectedB := by
  induction inputs generalizing st with
  | nil => exact ⟨h, by simp⟩
  | cons inp rest ih =>
    have hlp : livenessPhase st inp = (st, []) := by
      simp [livenessPhase, h]
    have hres : (step st inp).2 =
        { livenessPackets := [],
          eventPackets := (processEvents st.devices inp.events).2,
          statusSent := if inp.events = [] then none
                        else some (statusesOf (processEvents st.devices inp.events).1) } := by
      simp [step, hlp]
    have hst : (step st inp).1.any_response = true := by
      simp [step, hlp, h]
    obtain ⟨ih1, ih2⟩ := ih (step st inp).1 hst
    refine ⟨?_, ?_⟩
    · simpa [run] using ih1
    · intro pr hpr
      simp only [run, List.zip_cons_cons, List.mem_cons] at hpr
      rcases hpr with hpr | hpr
      · subst hpr
        obtain ⟨hc1, hc2⟩ := processEvents_counts inp.events st.devices
        exact ⟨by rw [hres], by rw [hres]; exact hc1, by rw [hres]; exact hc2⟩
      · exact ih2 pr hpr

/-- Witness for C5: a responded state processing one `Connected` event. -/
theorem c5_witness :
    (run stResp inpsW).1.any_response = true ∧
    ∀ pr ∈ inpsW.zip (run stResp inpsW).2,
      pr.2.livenessPackets = [] ∧
      pr.2.eventPackets.countP PacketType.isHandshakeB = 0 ∧
      pr.2.eventPackets.countP PacketType.isSensorInfoB =
        pr.1.events.countP ChannelInfo.isConnectedB :=
  c5_liveness_terminal stResp inpsW rfl

end Wrangler
